import Mathlib

/-!
A shallow embedding of the Mirage virtual machine (bluefish43/mirage).

Source files modelled:
- `src/value.rs`      : `MiType`, `MiValue`, canonical encodings, debug rendering
- `src/registers.rs`  : the 16-slot register file
- `src/stack.rs`      : `CallStack`, `StackFrame`, push/pop and the 4000-frame cap
- `src/runtime.rs`    : `MirageRuntime::run` dispatch loop, `setup`, `throw`/`unwind_stack`
- `src/assembly/tokens.rs` : the tokenizer

Modelling conventions:
- Machine bytes are `Nat` values below 256, produced only by the encoders.
- A Rust `Vec` used as a stack (the call stack, the argument stack) is a
  `List` whose HEAD is the most recently pushed element.
- Hash maps (`FxHashMap`) are association lists with overwrite-on-insert;
  no modelled claim observes iteration order.
- A Rust panic (slice index out of bounds, a failing `unwrap`, an
  `unreachable` arm, an integer division trap) is the `stuck` outcome:
  the VM neither continues, halts normally, nor reports a `MiError`.
- `i32` arithmetic wraps modulo `2 ^ 32` (release-mode Rust semantics);
  division and remainder keep their unconditional traps.
- Host-dependent primitives (IEEE-754 binary64 arithmetic and compares on
  8-byte payloads, float formatting, lossy UTF-8 decoding) are fields of
  the `Host` parameter; no modelled claim depends on their values.
- Process I/O is modelled by traces of the written values plus a list of
  pending stdin lines; host I/O failures (`IOError`) are external events
  and are not modelled.
- The diagnostic backtrace string attached to a thrown error is not
  modelled: no claim inspects it, and its rendering depends on host
  pointer formatting.
-/

namespace Mirage

/-- `MiType` (src/value.rs): the tag of a value. -/
inductive MiType
  | IntT
  | FloatT
  | StringT
  | BoolT
  | ClassT
  | FunctionT
  | NoneT
deriving DecidableEq, Repr

/-- `MiType::is_numeric` (src/value.rs): true for `Int` and `Float` only. -/
def MiType.is_numeric : MiType → Bool
  | .IntT => true
  | .FloatT => true
  | _ => false

/-- The Rust `Debug` rendering of an `MiType`, as used in error messages. -/
def MiType.debugStr : MiType → String
  | .IntT => "Int"
  | .FloatT => "Float"
  | .StringT => "String"
  | .BoolT => "Bool"
  | .ClassT => "Class"
  | .FunctionT => "Function"
  | .NoneT => "None"

/-- `MiValue` (src/value.rs): a byte payload plus a tag. Equality is the
derived structural equality on `(bytes, variant)`, matching the derived
`PartialEq` of the source. -/
structure MiValue where
  bytes : List Nat
  variant : MiType
deriving DecidableEq, Repr

/-- Little-endian byte encoding of `n`, width `w` (wraps modulo `2 ^ (8 * w)`). -/
def natLEBytes : Nat → Nat → List Nat
  | 0, _ => []
  | w + 1, n => n % 256 :: natLEBytes w (n / 256)

/-- Value of a little-endian byte list. -/
def leBytesToNat : List Nat → Nat
  | [] => 0
  | b :: bs => b + 256 * leBytesToNat bs

/-- `i32::from_le_bytes`: reads 4 little-endian bytes as a two's-complement
`i32`. Callers guard the length-4 check that the source's
`try_into().unwrap()` performs. -/
def i32toInt (bs : List Nat) : Int :=
  let u := leBytesToNat bs
  if u < 2 ^ 31 then (u : Int) else (u : Int) - 2 ^ 32

/-- `i32::to_le_bytes` composed with wrapping: encodes `n` modulo `2 ^ 32`
as 4 little-endian bytes. -/
def i32ofInt (n : Int) : List Nat := natLEBytes 4 (n.emod (2 ^ 32)).toNat

/-- `IntoValue for i32` (src/value.rs): the canonical `Int` encoding. -/
def intVal (n : Int) : MiValue := ⟨i32ofInt n, .IntT⟩

/-- `IntoValue for bool` (src/value.rs): the canonical `Bool` encoding. -/
def boolVal (b : Bool) : MiValue := ⟨[if b then 1 else 0], .BoolT⟩

/-- bincode `serialize::<String>` (src/value.rs, `IntoValue for String`):
an 8-byte little-endian length prefix followed by the raw UTF-8 payload. -/
def canonicalStringBytes (payload : List Nat) : List Nat :=
  natLEBytes 8 payload.length ++ payload

/-- The canonical `String` value holding the given UTF-8 payload bytes. -/
def stringVal (payload : List Nat) : MiValue := ⟨canonicalStringBytes payload, .StringT⟩

/-- Association-list lookup (model of `FxHashMap::get`). -/
def lookupA {α : Type} : List (String × α) → String → Option α
  | [], _ => none
  | (k, v) :: rest, key => if k = key then some v else lookupA rest key

/-- Association-list insert with overwrite (model of `FxHashMap::insert`). -/
def insertA {α : Type} : List (String × α) → String → α → List (String × α)
  | [], key, v => [(key, v)]
  | (k, w) :: rest, key, v =>
    if k = key then (key, v) :: rest else (k, w) :: insertA rest key v

/-- `StackFrame` (src/stack.rs). -/
structure StackFrame where
  name : String
  args : List (String × MiValue)
  local_variables : List (String × MiValue)
  return_addr : Option Nat
  handles_error : Bool
  error_handling_addr : Nat
deriving DecidableEq, Repr

/-- `CallStack::push_frame` (src/stack.rs): fails as soon as
`|frames| + 1` reaches the fixed cap `max_size = 4000` set by
`CallStack::new`. The head of the list is the innermost frame. -/
def pushFrame (frames : List StackFrame) (frame : StackFrame) :
    Except String (List StackFrame) :=
  if frames.length + 1 ≥ 4000 then
    .error ("Call stack size exceeded the maximum limit of " ++ toString 4000)
  else
    .ok (frame :: frames)

/-- `MiError` (src/result.rs) without the diagnostic backtrace string
(see the module comment). -/
structure MiError where
  name : String
  message : String
deriving DecidableEq, Repr

/-- `MirageRuntime::unwind_stack` (src/runtime.rs): pop frames until one
with `handles_error` is found; that frame is popped too and its
`error_handling_addr` is returned together with the frames below it. -/
def unwindStack : List StackFrame → Option (Nat × List StackFrame)
  | [] => none
  | f :: fs => if f.handles_error then some (f.error_handling_addr, fs) else unwindStack fs

/-- `Registers::get` (src/registers.rs): an out-of-range index reads like
an unset slot. -/
def regGet (regs : List (Option MiValue)) (i : Nat) : Option MiValue :=
  (regs.get? i).bind id

/-- `Registers::set` (src/registers.rs): stores at `i`, or fails with
`InvalidRegister` when the slot does not exist. -/
def regsSet (regs : List (Option MiValue)) (i : Nat) (v : MiValue) :
    Except MiError (List (Option MiValue)) :=
  if i < regs.length then .ok (regs.set i (some v))
  else .error ⟨"InvalidRegister",
    "The register `" ++ toString i ++ "` is not valid as is not between 0-15"⟩

/-- `Instruction` (src/instructions.rs). -/
inductive Instruction
  | Move (reg : Nat) (value : MiValue)
  | MoveBetween (src dst : Nat)
  | MoveArgument (arg : String) (reg : Nat)
  | MoveAsArgument (reg : Nat)
  | Add (op1 op2 dst : Nat)
  | Sub (op1 op2 dst : Nat)
  | Mul (op1 op2 dst : Nat)
  | Div (op1 op2 dst : Nat)
  | Rem (op1 op2 dst : Nat)
  | Pow (op1 op2 dst : Nat)
  | Or (op1 op2 dst : Nat)
  | Xor (op1 op2 dst : Nat)
  | And (op1 op2 dst : Nat)
  | Not (src dst : Nat)
  | Lt (op1 op2 dst : Nat)
  | Le (op1 op2 dst : Nat)
  | Gt (op1 op2 dst : Nat)
  | Ge (op1 op2 dst : Nat)
  | Return
  | SetVariable (reg : Nat) (name : String)
  | MovFromVariable (name : String) (reg : Nat)
  | ThrowFrom (reason_reg msg_reg : Nat)
  | Eq (op1 op2 dst : Nat)
  | Ne (op1 op2 dst : Nat)
  | DefineLabel (name : String)
  | JumpUnconditional (name : String)
  | JumpConditional (reg : Nat) (name : String)
  | Call (name : String)
  | DefineFnLabel (name : String) (args : List String) (returns : MiType)
  | EndFunction
  | StdoutWrite (reg : Nat)
  | StdoutWriteDebugged (reg : Nat)
  | StdoutFlush
  | StderrWrite (reg : Nat)
  | StderrWriteDebugged (reg : Nat)
  | StderrFlush
  | BufferedStdinRead (reg : Nat)
deriving DecidableEq, Repr

/-- Host-dependent primitives: IEEE-754 binary64 operations on 8-byte
little-endian payloads, float formatting, and lossy UTF-8 decoding.
No modelled claim depends on their values. -/
structure Host where
  fadd : List Nat → List Nat → List Nat
  fsub : List Nat → List Nat → List Nat
  fmul : List Nat → List Nat → List Nat
  fdiv : List Nat → List Nat → List Nat
  frem : List Nat → List Nat → List Nat
  fpow : List Nat → List Nat → List Nat
  flt : List Nat → List Nat → Bool
  fle : List Nat → List Nat → Bool
  fgt : List Nat → List Nat → Bool
  fge : List Nat → List Nat → Bool
  ffmt : List Nat → String
  utf8Lossy : List Nat → String

/-- A trivial host instantiation, used only to evaluate claims whose
truth does not involve the host primitives. -/
def host0 : Host where
  fadd := fun _ _ => List.replicate 8 0
  fsub := fun _ _ => List.replicate 8 0
  fmul := fun _ _ => List.replicate 8 0
  fdiv := fun _ _ => List.replicate 8 0
  frem := fun _ _ => List.replicate 8 0
  fpow := fun _ _ => List.replicate 8 0
  flt := fun _ _ => false
  fle := fun _ _ => false
  fgt := fun _ _ => false
  fge := fun _ _ => false
  ffmt := fun _ => ""
  utf8Lossy := fun _ => ""

/-- The mutable state of `MirageRuntime` (src/runtime.rs), plus the I/O
model: traces of values written to stdout/stderr and the pending stdin
lines (each including its trailing newline). -/
structure RunState where
  registers : List (Option MiValue)
  stack : List StackFrame
  program_counter : Int
  instructions : List Instruction
  labels : List (String × Int)
  argument_stack : List MiValue
  function_addr_table : List (String × (List String × MiType × Int))
  stdout_trace : List MiValue
  stderr_trace : List MiValue
  stdin_lines : List (List Nat)
deriving DecidableEq, Repr

/-- Outcome of one iteration of the dispatch loop of `MirageRuntime::run`:
continue with a new state, return from `run` normally (carrying register
15), return from `run` with an error, or hit a Rust panic (`stuck`). -/
inductive StepResult
  | next (s : RunState)
  | halt (s : RunState) (result : Option MiValue)
  | fault (e : MiError)
  | stuck
deriving DecidableEq, Repr

/-- `self.instructions.get(pc as usize)`: a negative counter, cast to a
huge `usize`, fetches nothing. -/
def instrAt (instrs : List Instruction) (i : Int) : Option Instruction :=
  if i < 0 then none else instrs.get? i.toNat

/-- `MirageRuntime::throw`: build the error and unwind. When a handler
frame exists the counter moves to its `error_handling_addr` and execution
continues with the frames below it popped; otherwise the error leaves
`run`. -/
def throwStep (s : RunState) (name message : String) : StepResult :=
  match unwindStack s.stack with
  | some (addr, rest) => .next { s with program_counter := (addr : Int), stack := rest }
  | none => .fault ⟨name, message⟩

/-- `self.registers.set(dst, v)?` followed by falling to the next loop
iteration: a register-file error propagates straight out of `run`. -/
def regSetNext (s : RunState) (i : Nat) (v : MiValue) : StepResult :=
  match regsSet s.registers i v with
  | .ok rs => .next { s with registers := rs }
  | .error e => .fault e

/-- Result of an `i32` binary operation in an arithmetic arm. -/
inductive IntOut
  | val (n : Int)
  | trap
  | mathErr (msg : String)
deriving DecidableEq, Repr

def intAddOp (a b : Int) : IntOut := .val (a + b)

def intSubOp (a b : Int) : IntOut := .val (a - b)

def intMulOp (a b : Int) : IntOut := .val (a * b)

/-- `i32` division: unconditional trap on a zero divisor and on
`i32::MIN / -1`; otherwise Rust's round-toward-zero division. -/
def intDivOp (a b : Int) : IntOut :=
  if b = 0 ∨ (a = -(2 ^ 31) ∧ b = -1) then .trap else .val (Int.tdiv a b)

/-- `i32` remainder, with the same traps as division. -/
def intRemOp (a b : Int) : IntOut :=
  if b = 0 ∨ (a = -(2 ^ 31) ∧ b = -1) then .trap else .val (Int.tmod a b)

/-- `val1.pow(val2 as u32)` guarded by the source's negativity check:
a negative exponent throws `MathError` (src/runtime.rs, `Pow` arm). -/
def intPowOp (a b : Int) : IntOut :=
  if b < 0 then
    .mathErr ("The exponent `" ++ toString b ++ "` is not valid as it needs to be positive")
  else .val (a ^ b.toNat)

/-- The common shape of the `Add`/`Sub`/`Mul`/`Div`/`Rem`/`Pow` arms of
`MirageRuntime::run` (src/runtime.rs lines 117-611): both operands must be
set and numeric and share a variant, otherwise `InvalidType`; the `Int`
payloads pass through `try_into().unwrap()` (length 4, else a panic), the
`Float` payloads likewise (length 8). The float-arm mismatch message of
the source's `Pow` says "add" (a copy-paste); the model uses the
per-operation verb throughout, which no claim observes. -/
def numBinop (s : RunState) (op1 op2 dst : Nat) (verb : String)
    (intOp : Int → Int → IntOut) (floatOp : List Nat → List Nat → List Nat) : StepResult :=
  match regGet s.registers op1 with
  | none => throwStep s "UnsetRegister"
      ("The register `" ++ toString op1 ++ "` has not been set yet.")
  | some v1 =>
    if ¬ v1.variant.is_numeric then
      throwStep s "InvalidType" ("The type `" ++ v1.variant.debugStr ++ "` is not numeric")
    else
      match regGet s.registers op2 with
      | none => throwStep s "UnsetRegister"
          ("The register `" ++ toString op2 ++ "` has not been set yet.")
      | some v2 =>
        if ¬ v2.variant.is_numeric then
          throwStep s "InvalidType" ("The type `" ++ v2.variant.debugStr ++ "` is not numeric")
        else
          match v1.variant, v2.variant with
          | .IntT, .IntT =>
            if v1.bytes.length = 4 ∧ v2.bytes.length = 4 then
              match intOp (i32toInt v1.bytes) (i32toInt v2.bytes) with
              | .val n => regSetNext s dst ⟨i32ofInt n, .IntT⟩
              | .trap => .stuck
              | .mathErr m => throwStep s "MathError" m
            else .stuck
          | .IntT, _ => throwStep s "InvalidType"
              ("Cannot " ++ verb ++ " two different types: `" ++ v1.variant.debugStr ++
                "` and  `" ++ v2.variant.debugStr ++ "`")
          | .FloatT, .FloatT =>
            if v1.bytes.length = 8 ∧ v2.bytes.length = 8 then
              regSetNext s dst ⟨floatOp v1.bytes v2.bytes, .FloatT⟩
            else .stuck
          | .FloatT, _ => throwStep s "InvalidType"
              ("Cannot " ++ verb ++ " two different types: `" ++ v1.variant.debugStr ++
                "` and  `" ++ v2.variant.debugStr ++ "`")
          | _, _ => .stuck

/-- The common shape of the `Lt`/`Le`/`Gt`/`Ge` arms (src/runtime.rs lines
775-1098): same operand discipline as `numBinop`, result written as
`vec![cmp as u8]` with variant `Bool`. `floatVerb` carries the source's
per-arm message tag (the `Gt` float arm says "FT", a source typo). -/
def cmpBinop (s : RunState) (op1 op2 dst : Nat) (intVerb floatVerb : String)
    (intCmp : Int → Int → Bool) (floatCmp : List Nat → List Nat → Bool) : StepResult :=
  match regGet s.registers op1 with
  | none => throwStep s "UnsetRegister"
      ("The register `" ++ toString op1 ++ "` has not been set yet.")
  | some v1 =>
    if ¬ v1.variant.is_numeric then
      throwStep s "InvalidType" ("The type `" ++ v1.variant.debugStr ++ "` is not numeric")
    else
      match regGet s.registers op2 with
      | none => throwStep s "UnsetRegister"
          ("The register `" ++ toString op2 ++ "` has not been set yet.")
      | some v2 =>
        if ¬ v2.variant.is_numeric then
          throwStep s "InvalidType" ("The type `" ++ v2.variant.debugStr ++ "` is not numeric")
        else
          match v1.variant, v2.variant with
          | .IntT, .IntT =>
            if v1.bytes.length = 4 ∧ v2.bytes.length = 4 then
              regSetNext s dst ⟨[if intCmp (i32toInt v1.bytes) (i32toInt v2.bytes) then 1 else 0], .BoolT⟩
            else .stuck
          | .IntT, _ => throwStep s "InvalidType"
              ("Cannot " ++ intVerb ++ " two different types: `" ++ v1.variant.debugStr ++
                "` and  `" ++ v2.variant.debugStr ++ "`")
          | .FloatT, .FloatT =>
            if v1.bytes.length = 8 ∧ v2.bytes.length = 8 then
              regSetNext s dst ⟨[if floatCmp v1.bytes v2.bytes then 1 else 0], .BoolT⟩
            else .stuck
          | .FloatT, _ => throwStep s "InvalidType"
              ("Cannot " ++ floatVerb ++ " two different types: `" ++ v1.variant.debugStr ++
                "` and  `" ++ v2.variant.debugStr ++ "`")
          | _, _ => .stuck

/-- The common shape of the `Or`/`Xor`/`And` arms (src/runtime.rs lines
612-749), reproduced verbatim: after `op1` is verified to be `Bool`, the
guard inside the `op2` branch tests `op1.variant` AGAIN (its error message
names `op2`'s type) — so a non-`Bool` second operand is never rejected and
its first payload byte is read directly (a panic when the payload is
empty). -/
def boolBinop (s : RunState) (op1 op2 dst : Nat) (f : Bool → Bool → Bool) : StepResult :=
  match regGet s.registers op1 with
  | none => throwStep s "UnsetRegister"
      ("The register `" ++ toString op1 ++ "` has not been set yet.")
  | some v1 =>
    if v1.variant ≠ MiType.BoolT then
      throwStep s "InvalidType" ("The type `" ++ v1.variant.debugStr ++ "` is not boolean")
    else
      match regGet s.registers op2 with
      | none => throwStep s "UnsetRegister"
          ("The register `" ++ toString op2 ++ "` has not been set yet.")
      | some v2 =>
        if v1.variant ≠ MiType.BoolT then
          throwStep s "InvalidType" ("The type `" ++ v2.variant.debugStr ++ "` is not boolean")
        else
          match v1.bytes.head?, v2.bytes.head? with
          | some b1, some b2 =>
            regSetNext s dst ⟨if f (b1 ≠ 0) (b2 ≠ 0) then [1] else [0], .BoolT⟩
          | _, _ => .stuck

/-- The argument-gathering loop of the `Call` arm (src/runtime.rs lines
1281-1294). `args_names.iter().rev().collect()` followed by `Vec::pop`
yields the parameter names in DECLARATION order; each one takes
`argument_stack.pop()`, the most recently pushed value. When the stack
runs dry the arm throws `NotEnoughArguments`; its `continue` resumes this
inner loop, so with a handler on the call stack the remaining parameters
are simply skipped (and the handler address the throw wrote to the counter
is overwritten by the function label just after the loop). -/
def gatherArgsLoop (funname : String) (total : Nat) :
    List String → List MiValue → List (String × MiValue) → List StackFrame →
    Except MiError (List (String × MiValue) × List MiValue × List StackFrame)
  | [], argStk, acc, frames => .ok (acc, argStk, frames)
  | nm :: rest, v :: argStk, acc, frames =>
    gatherArgsLoop funname total rest argStk (insertA acc nm v) frames
  | _ :: rest, [], acc, frames =>
    match unwindStack frames with
    | some (_, frames') => gatherArgsLoop funname total rest [] acc frames'
    | none => .error ⟨"NotEnoughArguments",
        "Cannot satisfy the arguments size for the function `" ++ funname ++ "`: " ++
          toString total⟩

/-- The `DefineFnLabel` skip (src/runtime.rs lines 1322-1330): advance the
counter while a next instruction exists, stopping once the instruction
stepped onto is `EndFunction` (or at the last instruction). -/
def skipFnFrom (instrs : List Instruction) (pc : Nat) : Nat :=
  match h : instrs.get? (pc + 1) with
  | none => pc
  | some .EndFunction => pc + 1
  | some _ => skipFnFrom instrs (pc + 1)
termination_by instrs.length - pc
decreasing_by
  obtain ⟨hlt, -⟩ := List.get?_eq_some.mp h
  omega

/-- One iteration of the dispatch loop of `MirageRuntime::run`
(src/runtime.rs lines 65-1464): increment the counter, fetch, dispatch.
An exhausted instruction list returns register 15 (the tail of `run`). -/
def step (host : Host) (s0 : RunState) : StepResult :=
  let s : RunState := { s0 with program_counter := s0.program_counter + 1 }
  match instrAt s.instructions s.program_counter with
  | none => .halt s (regGet s.registers 15)
  | some ins =>
    match ins with
    | .Move reg value => regSetNext s reg value
    | .MoveBetween src dst =>
      match regGet s.registers src with
      | some v => regSetNext s dst v
      | none => throwStep s "UnsetRegister"
          ("The register `" ++ toString src ++ " has not been set yet.")
    | .MoveArgument arg reg =>
      match s.stack with
      | [] => .stuck
      | frame :: _ =>
        match lookupA frame.args arg with
        | some v => regSetNext s reg v
        | none => throwStep s "UndefinedArgument"
            ("The argument `" ++ arg ++ "` has not been defined yet.")
    | .MoveAsArgument reg =>
      match regGet s.registers reg with
      | some v => .next { s with argument_stack := v :: s.argument_stack }
      | none => throwStep s "UnsetRegister"
          ("The register `" ++ toString reg ++ "` has not been set yet.")
    | .Add op1 op2 dst => numBinop s op1 op2 dst "add" intAddOp host.fadd
    | .Sub op1 op2 dst => numBinop s op1 op2 dst "subtract" intSubOp host.fsub
    | .Mul op1 op2 dst => numBinop s op1 op2 dst "multiply" intMulOp host.fmul
    | .Div op1 op2 dst => numBinop s op1 op2 dst "divide" intDivOp host.fdiv
    | .Rem op1 op2 dst => numBinop s op1 op2 dst "rem" intRemOp host.frem
    | .Pow op1 op2 dst => numBinop s op1 op2 dst "power" intPowOp host.fpow
    | .Or op1 op2 dst => boolBinop s op1 op2 dst (fun a b => a || b)
    | .Xor op1 op2 dst => boolBinop s op1 op2 dst (fun a b => Bool.xor a b)
    | .And op1 op2 dst => boolBinop s op1 op2 dst (fun a b => a && b)
    | .Not src dst =>
      match regGet s.registers src with
      | some v1 =>
        if v1.variant ≠ MiType.BoolT then
          throwStep s "InvalidType" ("The type `" ++ v1.variant.debugStr ++ "` is not boolean")
        else
          match v1.bytes.head? with
          | some b1 => regSetNext s dst ⟨if !(b1 ≠ 0) then [1] else [0], .BoolT⟩
          | none => .stuck
      | none => throwStep s "UnsetRegister"
          ("The register `" ++ toString src ++ " has not been set yet.")
    | .Lt op1 op2 dst =>
      cmpBinop s op1 op2 dst "LT" "LT" (fun a b => decide (a < b)) host.flt
    | .Le op1 op2 dst =>
      cmpBinop s op1 op2 dst "LE" "LE" (fun a b => decide (a ≤ b)) host.fle
    | .Gt op1 op2 dst =>
      cmpBinop s op1 op2 dst "GT" "FT" (fun a b => decide (a > b)) host.fgt
    | .Ge op1 op2 dst =>
      cmpBinop s op1 op2 dst "GE" "GE" (fun a b => decide (a ≥ b)) host.fge
    | .Return =>
      match s.stack with
      | [] => .stuck
      | frame :: rest =>
        match frame.return_addr with
        | some addr => .next { s with stack := rest, program_counter := (addr : Int) }
        | none => .halt { s with stack := rest } (regGet s.registers 15)
    | .SetVariable reg name =>
      match regGet s.registers reg with
      | some v =>
        match s.stack with
        | frame :: rest =>
          .next { s with stack :=
            { frame with local_variables := insertA frame.local_variables name v } :: rest }
        | [] => .stuck
      | none => throwStep s "UnsetRegister"
          ("The register `" ++ toString reg ++ "` is not valid.")
    | .MovFromVariable name reg =>
      match s.stack with
      | [] => .stuck
      | frame :: _ =>
        match lookupA frame.local_variables name with
        | some v => regSetNext s reg v
        | none => throwStep s "UndefinedVariable"
            ("Cannot move value of variable `" ++ name ++ "` to register `" ++ toString reg ++
              "` because `" ++ name ++ "` is not defined.")
    | .ThrowFrom reason_reg msg_reg =>
      match regGet s.registers reason_reg with
      | some rv =>
        match regGet s.registers msg_reg with
        | some mv => throwStep s (host.utf8Lossy rv.bytes) (host.utf8Lossy mv.bytes)
        | none => throwStep s "UnsetRegister"
            ("The register `" ++ toString msg_reg ++ "` has not been set yet.")
      | none => throwStep s "UnsetRegister"
          ("The register `" ++ toString reason_reg ++ "` has not been set yet.")
    | .Eq op1 op2 dst =>
      match regGet s.registers op1 with
      | some v1 =>
        match regGet s.registers op2 with
        | some v2 => regSetNext s dst ⟨[if v1 = v2 then 1 else 0], .BoolT⟩
        | none => throwStep s "UnsetRegister"
            ("The register `" ++ toString op2 ++ "` has not been set yet.")
      | none => throwStep s "UnsetRegister"
          ("The register `" ++ toString op1 ++ "` has not been set yet.")
    | .Ne op1 op2 dst =>
      match regGet s.registers op1 with
      | some v1 =>
        match regGet s.registers op2 with
        | some v2 => regSetNext s dst ⟨[if v1 ≠ v2 then 1 else 0], .BoolT⟩
        | none => throwStep s "UnsetRegister"
            ("The register `" ++ toString op2 ++ "` has not been set yet.")
      | none => throwStep s "UnsetRegister"
          ("The register `" ++ toString op1 ++ "` has not been set yet.")
    | .DefineLabel _ => .next s
    | .JumpUnconditional name =>
      match lookupA s.labels name with
      | some label_pos => .next { s with program_counter := label_pos + 1 }
      | none => throwStep s "UnsetLabel"
          ("The label `" ++ name ++ "` is currently not defined.")
    | .JumpConditional reg name =>
      match regGet s.registers reg with
      | some value =>
        match value.bytes.head? with
        | none => .stuck
        | some b =>
          if b = 1 then
            match lookupA s.labels name with
            | some label_pos => .next { s with program_counter := label_pos + 1 }
            | none => throwStep s "UnsetLabel"
                ("The label `" ++ name ++ "` is currently not defined.")
          else .next s
      | none => throwStep s "UnsetRegister"
          ("The register `" ++ toString reg ++ "` has not been set yet.")
    | .Call name =>
      match lookupA s.function_addr_table name with
      | some (args_names, _, real_label) =>
        match gatherArgsLoop name args_names.length args_names s.argument_stack [] s.stack with
        | .error e => .fault e
        | .ok (args_hash, arg_rest, frames') =>
          let frame : StackFrame :=
            ⟨name, args_hash, [], some (s.program_counter + 1).toNat, false, 0⟩
          match pushFrame frames' frame with
          | .ok frames2 =>
            .next { s with stack := frames2, argument_stack := arg_rest,
                           program_counter := real_label }
          | .error err =>
            throwStep { s with stack := frames', argument_stack := arg_rest,
                               program_counter := real_label } "StackOverflow" err
      | none => throwStep s "UndefinedFunction"
          ("Cannot call undefined function `" ++ name ++ "`")
    | .DefineFnLabel _ _ _ =>
      .next { s with program_counter := (skipFnFrom s.instructions s.program_counter.toNat : Int) }
    | .EndFunction => .next s
    | .StdoutWrite reg =>
      match regGet s.registers reg with
      | some v => .next { s with stdout_trace := s.stdout_trace ++ [v] }
      | none => throwStep s "UnsetRegister"
          ("The register `" ++ toString reg ++ "` has not been set yet.")
    | .StdoutWriteDebugged reg =>
      match regGet s.registers reg with
      | some v => .next { s with stdout_trace := s.stdout_trace ++ [v] }
      | none => throwStep s "UnsetRegister"
          ("The register `" ++ toString reg ++ "` has not been set yet.")
    | .StdoutFlush => .next s
    | .StderrWrite reg =>
      match regGet s.registers reg with
      | some v => .next { s with stderr_trace := s.stderr_trace ++ [v] }
      | none => throwStep s "UnsetRegister"
          ("The register `" ++ toString reg ++ "` has not been set yet.")
    | .StderrWriteDebugged reg =>
      match regGet s.registers reg with
      | some v => .next { s with stderr_trace := s.stderr_trace ++ [v] }
      | none => throwStep s "UnsetRegister"
          ("The register `" ++ toString reg ++ "` has not been set yet.")
    | .StderrFlush => .next s
    | .BufferedStdinRead reg =>
      match regsSet s.registers reg (stringVal (s.stdin_lines.headD [])) with
      | .ok rs => .next { s with registers := rs, stdin_lines := s.stdin_lines.tail }
      | .error e => .fault e

/-- `MirageRuntime::setup`: one pass recording `DefineLabel` and
`DefineFnLabel` positions; a duplicate name overwrites (last one wins). -/
def setupGo : List Instruction → Nat → List (String × Int) →
    List (String × (List String × MiType × Int)) →
    List (String × Int) × List (String × (List String × MiType × Int))
  | [], _, ls, fs => (ls, fs)
  | .DefineLabel name :: rest, pos, ls, fs =>
    setupGo rest (pos + 1) (insertA ls name (pos : Int)) fs
  | .DefineFnLabel name args returns :: rest, pos, ls, fs =>
    setupGo rest (pos + 1) ls (insertA fs name (args, returns, (pos : Int)))
  | _ :: rest, pos, ls, fs => setupGo rest (pos + 1) ls fs

/-- The outermost `Main` frame pushed at the top of `MirageRuntime::run`. -/
def mainFrame : StackFrame := ⟨"Main", [], [], none, false, 0⟩

/-- The state of `MirageRuntime::new` + `setup` + the `Main` frame push,
with the counter at its initial `-1`. -/
def initState (instrs : List Instruction) (stdin : List (List Nat)) : RunState :=
  { registers := List.replicate 16 none
    stack := [mainFrame]
    program_counter := -1
    instructions := instrs
    labels := (setupGo instrs 0 [] []).1
    argument_stack := []
    function_addr_table := (setupGo instrs 0 [] []).2
    stdout_trace := []
    stderr_trace := []
    stdin_lines := stdin }

/-- Final outcome of running the machine with the given step budget;
`outOfFuel` is a modelling device only, never the source's behaviour. -/
inductive RunOutcome
  | done (result : Option MiValue)
  | fault (e : MiError)
  | stuck
  | outOfFuel
deriving DecidableEq, Repr

/-- Iterated `step` (the loop of `MirageRuntime::run`). -/
def runFuel (host : Host) : Nat → RunState → RunOutcome
  | 0, _ => .outOfFuel
  | n + 1, s =>
    match step host s with
    | .next s' => runFuel host n s'
    | .halt _ r => .done r
    | .fault e => .fault e
    | .stuck => .stuck

/-- The index the NEXT loop iteration will fetch from: the dispatch loop
increments the counter before every fetch. -/
def nextFetchIndex (s : RunState) : Int := s.program_counter + 1

/-- The value the next step writes to register `r`, when it continues. -/
def stepWrites (host : Host) (s : RunState) (r : Nat) : Option MiValue :=
  match step host s with
  | .next s' => regGet s'.registers r
  | _ => none

/-- The error name the next step leaves `run` with, when it faults. -/
def stepFaultName (host : Host) (s : RunState) : Option String :=
  match step host s with
  | .fault e => some e.name
  | _ => none

/-- Looks up argument `k` in the innermost frame after the next step. -/
def stepTopFrameArg (host : Host) (s : RunState) (k : String) : Option MiValue :=
  match step host s with
  | .next s' => s'.stack.head?.bind fun fr => lookupA fr.args k
  | _ => none

/-! ## Value rendering (src/value.rs, `ToStringDebugged for MiValue`) -/

/-- The character-building loop of the `String` arm of `to_string_debugged`:
`for i in 0..len { string.push(self.bytes[(i + 4) as usize] as char) }`,
with `none` for the out-of-bounds panic. -/
def debugPayloadChars (bytes : List Nat) : Nat → Nat → Option (List Char)
  | _, 0 => some []
  | i, k + 1 =>
    match bytes.get? (i + 4) with
    | none => none
    | some b => (debugPayloadChars bytes (i + 1) k).map (fun cs => Char.ofNat b :: cs)

/-- The `MiType::String` arm of `ToStringDebugged for MiValue`
(src/value.rs lines 152-162), with `none` for a panic. The source slices
`self.bytes[0..=4]` — FIVE bytes — and then `try_into()`s them into a
`[u8; 4]`, so whenever the slice itself is in bounds the conversion's
`unwrap` panics. -/
def stringDebugRender (bytes : List Nat) : Option String :=
  if 5 ≤ bytes.length then
    let slice := bytes.take 5
    if slice.length = 4 then
      match debugPayloadChars bytes 0 (leBytesToNat slice) with
      | some cs => some (String.mk ('"' :: cs ++ ['"']))
      | none => none
    else none
  else none

/-- `ToStringDebugged for MiValue` (src/value.rs lines 142-205), returning
`none` for the genuine panics (empty `Bool` payload,
wrong `Int`/`Float` payload width, the `String` arm's slice conversion)
and the `Class`/`Function` arms, which deserialize host-serialized records
and are observed by no claim. -/
def to_string_debugged (host : Host) (v : MiValue) : Option String :=
  match v.variant with
  | .BoolT =>
    match v.bytes.head? with
    | some b => some (if b = 1 then "true" else "false")
    | none => none
  | .StringT => stringDebugRender v.bytes
  | .NoneT => some "None"
  | .IntT => if v.bytes.length = 4 then some (toString (i32toInt v.bytes)) else none
  | .FloatT => if v.bytes.length = 8 then some (host.ffmt v.bytes) else none
  | .ClassT => none
  | .FunctionT => none

/-! ## Tokenizer (src/assembly/tokens.rs) -/

/-- `TokenType` (src/assembly/tokens.rs); constructors are renamed only
where the source name is a Lean keyword (`Type` → `tyName`) or clashes
(`Int`/`Float`/`String`/`Boolean` → `intLit`/`floatLit`/`strLit`/`boolLit`).
`floatLit` carries the raw digit run: the float arm is unreachable
(see `scanNumber`), so its `f64` payload is never produced. -/
inductive TokenType
  | register (n : Nat)
  | keyword (s : String)
  | identifier (s : String)
  | tyName (s : String)
  | intLit (n : Int)
  | floatLit (raw : List Char)
  | strLit (s : String)
  | boolLit (b : Bool)
  | comma
deriving DecidableEq, Repr

/-- `Token` (src/assembly/tokens.rs). -/
structure Token where
  token_type : TokenType
  length : Nat
  line : Nat
  column : Nat
deriving DecidableEq, Repr

/-- The reserved mnemonic set (src/assembly/tokens.rs lines 45-52). -/
def keywordSet : List String :=
  ["move", "movebetween", "moveargument", "moveasargument",
   "add", "sub", "mul", "div", "rem", "pow", "or", "xor", "and",
   "not", "lt", "le", "gt", "ge", "return", "setvariable", "movfromvariable",
   "throwfrom", "eq", "ne", "definelabel", "jumpunc", "jumpc",
   "call", "definefnlabel", "endfunction", "stdoutwrite", "stdoutwritedebugged",
   "stdoutflush", "stderrwrite", "stderrwritedebugged", "stderrflush",
   "bufferedstdinread"]

/-- The type words (src/assembly/tokens.rs lines 66-68). -/
def typeSet : List String := ["int", "float", "string", "class", "function", "None"]

/-- `'a'..='z' | 'A'..='Z' | '_'`: the identifier head characters. -/
def isIdentHead (c : Char) : Bool :=
  ('a' ≤ c && c ≤ 'z') || ('A' ≤ c && c ≤ 'Z') || c = '_'

/-- The identifier continuation loop: peek, stop at whitespace or any
character that is not alphanumeric, `_` or `.` (the source's Unicode
`is_alphanumeric` restricted to the ASCII inputs at hand). -/
def scanIdent : List Char → List Char × List Char
  | [] => ([], [])
  | c :: rest =>
    if c.isWhitespace then ([], c :: rest)
    else if c.isAlphanum || c = '_' || c = '.' then
      let (tl, rest') := scanIdent rest
      (c :: tl, rest')
    else ([], c :: rest)

/-- The number loop (src/assembly/tokens.rs lines 121-127): it advances
with `iterator.next()`, so the terminating non-digit character is consumed
and DROPPED. In particular a `.` never joins a digit run, and the float
branch below is unreachable. -/
def scanNumber : List Char → List Char × List Char
  | [] => ([], [])
  | c :: rest =>
    if c.isDigit then
      let (ds, rest') := scanNumber rest
      (c :: ds, rest')
    else ([], rest)

/-- Decimal value of a digit run. -/
def digitsToNat (cs : List Char) : Nat :=
  cs.foldl (fun n c => n * 10 + (c.toNat - '0'.toNat)) 0

/-- `str::parse::<u8>` on the register tail: digits only, value ≤ 255. -/
def parseU8 (cs : List Char) : Option Nat :=
  if cs ≠ [] ∧ cs.all (fun c => c.isDigit) ∧ digitsToNat cs ≤ 255 then
    some (digitsToNat cs)
  else none

/-- The display text of the `ParseIntError` that `parse::<u8>` reports. -/
def parseU8ErrMsg (cs : List Char) : String :=
  if cs ≠ [] ∧ cs.all (fun c => c.isDigit) then
    "number too large to fit in target type"
  else "invalid digit found in string"

def isHexDigit (c : Char) : Bool :=
  c.isDigit || ('a' ≤ c && c ≤ 'f') || ('A' ≤ c && c ≤ 'F')

def hexDigitVal (c : Char) : Nat :=
  if c.isDigit then c.toNat - '0'.toNat
  else if 'a' ≤ c && c ≤ 'f' then c.toNat - 'a'.toNat + 10
  else c.toNat - 'A'.toNat + 10

/-- `u32::from_str_radix(digits, 16)` on a nonempty all-hex run. -/
def hexToNat (cs : List Char) : Option Nat :=
  if cs ≠ [] ∧ cs.all isHexDigit then
    some (cs.foldl (fun n c => n * 16 + hexDigitVal c) 0)
  else none

/-- Prepend a scanned character to a string-scan continuation. -/
def strCons (c : Char) :
    Except String (List Char × Nat × List Char) →
    Except String (List Char × Nat × List Char)
  | .ok (cs, ln, rest) => .ok (c :: cs, ln, rest)
  | .error e => .error e

/-- The string-literal loop of `tokenize` (src/assembly/tokens.rs lines
159-265). Note the `u` escape: the source consumes the NEXT FOUR
characters as hex digits — it never consumes braces, although its own
error message documents the braced form. `char::from_u32` failures push
nothing. Returns the content, the updated line counter, and the rest. -/
def scanString : Nat → Nat → List Char → Except String (List Char × Nat × List Char)
  | line, col, [] =>
    .error (toString line ++ ":" ++ toString col ++ ": Unclosed string literal")
  | line, _, '"' :: rest => .ok ([], line, rest)
  | line, col, '\n' :: rest => strCons '\n' (scanString (line + 1) col rest)
  | line, col, '\r' :: '\n' :: rest' =>
    strCons '\r' (strCons '\n' (scanString (line + 1) col rest'))
  | line, col, '\r' :: rest => strCons '\r' (scanString line col rest)
  | line, col, '\\' :: rest =>
    match rest with
    | [] => .error (toString line ++ ":" ++ toString col ++ ": Unclosed string literal")
    | e :: rest' =>
      match e with
      | 'n' => strCons '\n' (scanString line col rest')
      | 'r' => strCons '\r' (scanString line col rest')
      | 't' => strCons '\t' (scanString line col rest')
      | '\\' => strCons '\\' (scanString line col rest')
      | '0' => strCons (Char.ofNat 0) (scanString line col rest')
      | 'u' =>
        match rest' with
        | d1 :: d2 :: d3 :: d4 :: rest2 =>
          match hexToNat [d1, d2, d3, d4] with
          | some num =>
            if Nat.isValidChar num then strCons (Char.ofNat num) (scanString line col rest2)
            else scanString line col rest2
          | none =>
            .error (toString line ++ ":" ++ toString col ++
              ": Error during unicode escape sequence '\\u" ++ String.mk [d1, d2, d3, d4] ++
              "' parsing: invalid digit found in string")
        | _ =>
          .error (toString line ++ ":" ++ toString col ++
            ": A unicode escape sequence must have 4 hexadecimal digits in the sense of \\u\x7b7FFF\x7d")
      | '"' => strCons '"' (scanString line col rest')
      | other =>
        .error (toString line ++ ":" ++ toString col ++
          ": Unknown escape sequence '\\" ++ String.mk [other] ++ "'")
  | line, col, ch :: rest => strCons ch (scanString line col rest)

/-- The line-comment loop after `--`: consume up to and including the next
newline (resetting the column), or to the end of input. -/
def skipComment : List Char → Nat → Nat → List Char × Nat × Nat
  | [], line, col => ([], line, col)
  | '\n' :: rest, line, _ => (rest, line + 1, 0)
  | _ :: rest, line, col => skipComment rest line col

/-- The number of UTF-8 bytes of the scanned content (`String::len`). -/
def utf8Len (cs : List Char) : Nat := (cs.map Char.utf8Size).sum

/-- Prepend a produced token to a tokenizer continuation. -/
def withTok (t : Token) :
    Except String (List Token) → Except String (List Token)
  | .ok toks => .ok (t :: toks)
  | .error e => .error e

/-- Whether a nonempty identifier's last character is an ASCII digit
(`identifier.chars().last().unwrap().is_numeric()` on ASCII input). -/
def lastIsDigit (cs : List Char) : Bool :=
  match cs.getLast? with
  | some c => c.isDigit
  | none => false

/-- The main loop of `tokenize` (src/assembly/tokens.rs lines 27-297).
`fuel` is a termination device only: every iteration consumes at least one
character and the wrapper supplies more fuel than there are characters.
Column bookkeeping reproduces the source, including its quirks (the
identifier arm adds the length once up front and the plain-identifier and
register branches add more; number, comma and string tokens record the
pre-advance column). -/
def tokenizeLoop (filename : String) :
    Nat → List Char → Nat → Nat → Except String (List Token)
  | 0, _, _, _ => .error "tokenize: out of fuel"
  | _ + 1, [], _, _ => .ok []
  | fuel + 1, ch :: rest, line, col =>
    if isIdentHead ch then
      let (tl, rest') := scanIdent rest
      let identChars := ch :: tl
      let identStr := String.mk identChars
      let identLen := identChars.length
      let col1 := col + identLen
      if keywordSet.contains identStr then
        withTok ⟨.keyword identStr, identLen, line, col1⟩
          (tokenizeLoop filename fuel rest' line col1)
      else if identStr = "true" ∨ identStr = "false" then
        withTok ⟨.boolLit (identStr = "true"), identLen, line, col1⟩
          (tokenizeLoop filename fuel rest' line col1)
      else if typeSet.contains identStr then
        withTok ⟨.tyName identStr, identLen, line, col1⟩
          (tokenizeLoop filename fuel rest' line col1)
      else if identStr = "plch" then
        tokenizeLoop filename fuel rest' line col1
      else if ch = 'r' ∧ lastIsDigit identChars ∧ identLen ≤ 3 then
        let num := identChars.drop 1
        match parseU8 num with
        | some reg =>
          if reg ≥ 16 then .error ("Invalid register index " ++ toString reg)
          else
            withTok ⟨.register reg, identLen, line, col1⟩
              (tokenizeLoop filename fuel rest' line (col1 + num.length + 1))
        | none => .error ("Unable to parse register value " ++ parseU8ErrMsg num)
      else
        withTok ⟨.identifier identStr, identLen, line, col1⟩
          (tokenizeLoop filename fuel rest' line (col1 + identLen))
    else if ch = ',' then
      withTok ⟨.comma, 1, line, col⟩ (tokenizeLoop filename fuel rest line (col + 1))
    else if ch.isDigit then
      let (ds, rest') := scanNumber rest
      let number := ch :: ds
      if number.contains '.' then
        withTok ⟨.floatLit number, number.length, line, col⟩
          (tokenizeLoop filename fuel rest' line (col + number.length))
      else if digitsToNat number ≤ 2147483647 then
        withTok ⟨.intLit (digitsToNat number : Int), number.length, line, col⟩
          (tokenizeLoop filename fuel rest' line (col + number.length))
      else
        .error (filename ++ ":" ++ toString line ++ ":" ++ toString col ++
          ": Error parsing int number: number too large to fit in target type")
    else if ch = '"' then
      match scanString line col rest with
      | .ok (content, line', rest') =>
        withTok ⟨.strLit (String.mk content), utf8Len content + 2, line', col⟩
          (tokenizeLoop filename fuel rest' line' col)
      | .error e => .error e
    else if ch = '-' then
      match rest with
      | '-' :: rest' =>
        match skipComment rest' line col with
        | (rest2, line2, col2) => tokenizeLoop filename fuel rest2 line2 col2
      | _ =>
        .error (filename ++ ":" ++ toString line ++ ":" ++ toString col ++
          ": Unrecognized token '-" ++ String.mk [rest.headD '?'] ++ "'")
    else if ch = '\n' then
      tokenizeLoop filename fuel rest (line + 1) 0
    else if ch.isWhitespace then
      tokenizeLoop filename fuel rest line col
    else
      .error (filename ++ ":" ++ toString line ++ ":" ++ toString col ++
        ": Unrecognized token '" ++ String.mk [ch] ++ "'")

/-- `tokenize` (src/assembly/tokens.rs): line starts at 1, column at 0. -/
def tokenize (input : List Char) (filename : String) : Except String (List Token) :=
  tokenizeLoop filename (input.length + 1) input 1 0

/-- Whether a tokenizer run succeeded. -/
def tokenizeOk (input : List Char) (filename : String) : Bool :=
  match tokenize input filename with
  | .ok _ => true
  | .error _ => false

/-! ## Derived notions and concrete states used to settle the claims -/

/-- The operand registers of an arithmetic instruction
(`Add`/`Sub`/`Mul`/`Div`/`Rem`/`Pow`). -/
def arithOperands : Instruction → Option (Nat × Nat × Nat)
  | .Add a b c => some (a, b, c)
  | .Sub a b c => some (a, b, c)
  | .Mul a b c => some (a, b, c)
  | .Div a b c => some (a, b, c)
  | .Rem a b c => some (a, b, c)
  | .Pow a b c => some (a, b, c)
  | _ => none

/-- A fresh machine state over the given program: 16 empty registers, the
`Main` frame, counter `-1`, empty tables and stacks. -/
def baseState (instrs : List Instruction) : RunState :=
  { registers := List.replicate 16 none
    stack := [mainFrame]
    program_counter := -1
    instructions := instrs
    labels := []
    argument_stack := []
    function_addr_table := []
    stdout_trace := []
    stderr_trace := []
    stdin_lines := [] }

/-- The `None` value produced by `Parser::parse_value` on the `None` type
word (src/assembly/parser.rs line 307): an empty payload. -/
def noneVal : MiValue := ⟨[], .NoneT⟩

/-- The IEEE-754 binary64 little-endian bytes of `1.0`
(`0x3FF0000000000000`). -/
def floatOneBytes : List Nat := [0, 0, 0, 0, 0, 0, 240, 63]

/-- Registers with `r0 = Bool true` and `r1 = Int 1`: the C2 failing
register configuration. -/
def c2Regs : List (Option MiValue) :=
  ((List.replicate 16 (Option.none)).set 0 (some (boolVal true))).set 1 (some (intVal 1))

/-- A `Call` of a two-parameter function `f(a, b)` with `Int 1` pushed
first and `Int 2` pushed last (the head of the modelled argument stack is
the most recently pushed value). -/
def c1State : RunState :=
  { baseState [.Call "f"] with
      argument_stack := [intVal 2, intVal 1]
      function_addr_table := [("f", (["a", "b"], .NoneT, 0))] }

/-- The same call with only one pending argument for two parameters. -/
def c1ShortState : RunState :=
  { baseState [.Call "f"] with
      argument_stack := [intVal 1]
      function_addr_table := [("f", (["a", "b"], .NoneT, 0))] }

/-- A `Call` of a zero-parameter function whose label sits at index 5. -/
def c3CallState : RunState :=
  { baseState [.Call "f", .Return] with
      function_addr_table := [("f", ([], .NoneT, 5))] }

/-- About to execute `Return` with an inner frame whose return address
is 1 (as pushed by a `Call` at index 0). -/
def c3ReturnState : RunState :=
  { baseState [.Return] with
      stack := [⟨"f", [], [], some 1, false, 0⟩, mainFrame] }

/-- `add r0 r1 r2` over `r0 = Int 2`, `r1 = Int 3`. -/
def c6State : RunState :=
  { baseState [.Add 0 1 2] with
      registers :=
        ((List.replicate 16 (Option.none)).set 0 (some (intVal 2))).set 1
          (some (intVal 3)) }

/-- `add r0 r1 r2` over `r0 = Int 1`, `r1 = Float` (mismatched variants). -/
def c6MixState : RunState :=
  { baseState [.Add 0 1 2] with
      registers :=
        ((List.replicate 16 (Option.none)).set 0 (some (intVal 1))).set 1
          (some ⟨floatOneBytes, .FloatT⟩) }

/-- `eq r0 r1 r2` over `r0 = Int 1`, `r1 = Int 2`. -/
def c7EqState : RunState :=
  { baseState [.Eq 0 1 2] with
      registers :=
        ((List.replicate 16 (Option.none)).set 0 (some (intVal 1))).set 1
          (some (intVal 2)) }

/-- `ne r0 r1 r2` over the same registers. -/
def c7NeState : RunState :=
  { baseState [.Ne 0 1 2] with
      registers :=
        ((List.replicate 16 (Option.none)).set 0 (some (intVal 1))).set 1
          (some (intVal 2)) }

/-- A call stack already holding 3999 frames: the next push is the 4000th. -/
def fullFrames : List StackFrame := List.replicate 3999 mainFrame

/-- A `Call` of a zero-parameter function on the full call stack. -/
def c8State : RunState :=
  { baseState [.Call "f"] with
      stack := fullFrames
      function_addr_table := [("f", ([], .NoneT, 0))] }

/-- Whether a `pushFrame` succeeded. -/
def pushOk (frames : List StackFrame) (frame : StackFrame) : Bool :=
  match pushFrame frames frame with
  | .ok _ => true
  | .error _ => false

/-- `move r0 None` then `jumpc r0 L`: the C10 program. -/
def c10Program : List Instruction := [.Move 0 noneVal, .JumpConditional 0 "L"]

/-- The characters of the source text `"\u{0041}"` (a string literal whose
escape uses the braced form the spec documents). -/
def bracedEscapeInput : List Char :=
  ['"', '\\', 'u', '\x7b', '0', '0', '4', '1', '\x7d', '"']

/-- The characters of the source text `"A"` (the brace-less form the
tokenizer actually reads: four hex digits immediately after `u`). -/
def plainEscapeInput : List Char := ['"', '\\', 'u', '0', '0', '4', '1', '"']

/-! ## Shared lemmas -/

theorem lookupA_insertA {α : Type} (m : List (String × α)) (key q : String) (v : α) :
    lookupA (insertA m key v) q = if q = key then some v else lookupA m q := by
  induction m with
  | nil =>
    by_cases h : q = key
    · subst h; simp [insertA, lookupA]
    · have h' : ¬ key = q := fun hh => h hh.symm
      simp [insertA, lookupA, h, h']
  | cons kv rest ih =>
    obtain ⟨k, w⟩ := kv
    by_cases hk : k = key
    · subst hk
      by_cases hq : q = k
      · subst hq; simp [insertA, lookupA]
      · have hq' : ¬ k = q := fun hh => hq hh.symm
        simp [insertA, lookupA, hq, hq']
    · by_cases hkq : k = q
      · subst hkq
        have hq : ¬ k = key := hk
        simp [insertA, lookupA, hk, hq]
      · simp [insertA, lookupA, hk, hkq, ih]

theorem throwStep_fault (s : RunState) (hnh : unwindStack s.stack = none)
    (n m : String) : throwStep s n m = .fault ⟨n, m⟩ := by
  unfold throwStep
  rw [hnh]

theorem get?_set_self {α : Type} :
    ∀ (l : List α) (i : Nat) (a : α), i < l.length → (l.set i a).get? i = some a
  | _ :: _, 0, _, _ => rfl
  | _ :: l, i + 1, a, h => get?_set_self l i a (by simpa using h)
  | [], _, _, h => absurd h (by simp)

theorem regGet_set_self (regs : List (Option MiValue)) (i : Nat) (v : MiValue)
    (h : i < regs.length) : regGet (regs.set i (some v)) i = some v := by
  unfold regGet
  rw [get?_set_self _ _ _ (by simpa using h)]
  rfl

/-- With enough pending values, the gathering loop pairs the parameter
names, in declaration order, with the most recently pushed values, in
most-recent-first order, leaving the frames untouched; with distinct
parameter names the produced map sends the `i`-th declared name to the
`i`-th most recently pushed value, and names not among the parameters keep
their binding from `acc`. -/
theorem gatherArgsLoop_enough (fn : String) (total : Nat) :
    ∀ (names : List String) (vals rest : List MiValue)
      (acc : List (String × MiValue)) (frames : List StackFrame),
      vals.length = names.length → names.Nodup →
      ∃ m, gatherArgsLoop fn total names (vals ++ rest) acc frames = .ok (m, rest, frames) ∧
        (∀ i (h1 : i < names.length) (h2 : i < vals.length),
          lookupA m (names.get ⟨i, h1⟩) = some (vals.get ⟨i, h2⟩)) ∧
        (∀ k, k ∉ names → lookupA m k = lookupA acc k) := by
  intro names
  induction names with
  | nil =>
    intro vals rest acc frames hlen _
    have hv : vals = [] := List.eq_nil_of_length_eq_zero (by simpa using hlen)
    subst hv
    exact ⟨acc, rfl, by intro i h1 _; exact absurd h1 (by simp), fun k _ => rfl⟩
  | cons n ns ih =>
    intro vals rest acc frames hlen hnd
    match vals with
    | [] => simp at hlen
    | v :: vs =>
      have hlen' : vs.length = ns.length := by simpa using hlen
      have hnd' : ns.Nodup := (List.nodup_cons.mp hnd).2
      have hnmem : n ∉ ns := (List.nodup_cons.mp hnd).1
      obtain ⟨m, hm, hidx, hout⟩ := ih vs rest (insertA acc n v) frames hlen' hnd'
      refine ⟨m, ?_, ?_, ?_⟩
      · simpa [gatherArgsLoop] using hm
      · intro i h1 h2
        match i with
        | 0 =>
          have := hout n hnmem
          simp only [List.get]
          rw [this, lookupA_insertA]
          simp
        | i + 1 =>
          exact hidx i (by simpa using h1) (by simpa using h2)
      · intro k hk
        have hkn : k ≠ n := fun h => hk (h ▸ List.mem_cons_self n ns)
        have hkns : k ∉ ns := fun h => hk (List.mem_cons_of_mem n h)
        rw [hout k hkns, lookupA_insertA, if_neg hkn]

/-- With enough pending values the gathering loop succeeds, consuming
exactly as many values as there are parameters and leaving the frames
untouched. -/
theorem gatherArgsLoop_ok (fn : String) (total : Nat) :
    ∀ (names : List String) (vals rest : List MiValue)
      (acc : List (String × MiValue)) (frames : List StackFrame),
      vals.length = names.length →
      ∃ m, gatherArgsLoop fn total names (vals ++ rest) acc frames = .ok (m, rest, frames) := by
  intro names
  induction names with
  | nil =>
    intro vals rest acc frames hlen
    have hv : vals = [] := List.eq_nil_of_length_eq_zero (by simpa using hlen)
    subst hv
    exact ⟨acc, rfl⟩
  | cons n ns ih =>
    intro vals rest acc frames hlen
    match vals with
    | [] => simp at hlen
    | v :: vs =>
      obtain ⟨m, hm⟩ := ih vs rest (insertA acc n v) frames (by simpa using hlen)
      exact ⟨m, by simpa [gatherArgsLoop] using hm⟩

/-- With no handler on the call stack and too few pending values, the
gathering loop reports `NotEnoughArguments`. -/
theorem gatherArgsLoop_short (fn : String) (total : Nat) :
    ∀ (names : List String) (stk : List MiValue)
      (acc : List (String × MiValue)) (frames : List StackFrame),
      unwindStack frames = none → stk.length < names.length →
      gatherArgsLoop fn total names stk acc frames =
        .error ⟨"NotEnoughArguments",
          "Cannot satisfy the arguments size for the function `" ++ fn ++ "`: " ++
            toString total⟩ := by
  intro names
  induction names with
  | nil => intro stk acc frames _ hlt; exact absurd hlt (by simp)
  | cons n ns ih =>
    intro stk acc frames hnh hlt
    match stk with
    | [] => simp [gatherArgsLoop, hnh]
    | v :: vs =>
      have : vs.length < ns.length := by simpa using hlt
      simpa [gatherArgsLoop] using ih vs (insertA acc n v) frames hnh this

/-- Behaviour of the shared arithmetic-arm shape: on a handler-free stack,
a continuing step can only have written a value of the common operand
variant, and a non-numeric operand or a variant mismatch faults with
`InvalidType`. -/
theorem numBinop_spec (s : RunState) (op1 op2 dst : Nat) (verb : String)
    (intOp : Int → Int → IntOut) (fop : List Nat → List Nat → List Nat)
    (v1 v2 : MiValue)
    (h1 : regGet s.registers op1 = some v1) (h2 : regGet s.registers op2 = some v2)
    (hnh : unwindStack s.stack = none) :
    (∀ s', numBinop s op1 op2 dst verb intOp fop = .next s' →
      ∃ w, regGet s'.registers dst = some w ∧ w.variant = v1.variant ∧
        v1.variant = v2.variant) ∧
    ((v1.variant.is_numeric = false ∨ v2.variant.is_numeric = false ∨
        v1.variant ≠ v2.variant) →
      ∃ e, numBinop s op1 op2 dst verb intOp fop = .fault e ∧ e.name = "InvalidType") := by
  obtain ⟨b1, t1⟩ := v1
  obtain ⟨b2, t2⟩ := v2
  have hthrow := throwStep_fault s hnh
  unfold numBinop
  rw [h1, h2]
  cases t1 <;> cases t2
  case IntT.IntT =>
    constructor
    · intro s' hs'
      by_cases hlen : b1.length = 4 ∧ b2.length = 4
      · cases hio : intOp (i32toInt b1) (i32toInt b2) with
        | val n =>
          by_cases hdst : dst < s.registers.length
          · simp [MiType.is_numeric, hlen, hio, regSetNext, regsSet, hdst] at hs'
            subst hs'
            exact ⟨_, regGet_set_self _ _ _ hdst, rfl, rfl⟩
          · simp [MiType.is_numeric, hlen, hio, regSetNext, regsSet, hdst] at hs'
        | trap => simp [MiType.is_numeric, hlen, hio] at hs'
        | mathErr m => simp [MiType.is_numeric, hlen, hio, hthrow] at hs'
      · simp [MiType.is_numeric, hlen] at hs'
    · intro h
      rcases h with h | h | h <;> simp [MiType.is_numeric] at h
  case FloatT.FloatT =>
    constructor
    · intro s' hs'
      by_cases hlen : b1.length = 8 ∧ b2.length = 8
      · by_cases hdst : dst < s.registers.length
        · simp [MiType.is_numeric, hlen, regSetNext, regsSet, hdst] at hs'
          subst hs'
          exact ⟨_, regGet_set_self _ _ _ hdst, rfl, rfl⟩
        · simp [MiType.is_numeric, hlen, regSetNext, regsSet, hdst] at hs'
      · simp [MiType.is_numeric, hlen] at hs'
    · intro h
      rcases h with h | h | h <;> simp [MiType.is_numeric] at h
  all_goals constructor
  all_goals
    first
    | (intro s' hs'; simp [MiType.is_numeric, hthrow] at hs')
    | (intro _; simp [MiType.is_numeric, hthrow])

theorem natLEBytes_length (w : Nat) : ∀ n, (natLEBytes w n).length = w := by
  induction w with
  | zero => intro n; rfl
  | succ w ih => intro n; simp [natLEBytes, ih]

/-! ## The claims -/

/-- C2: the claim says a non-`Bool` operand of `Or`/`Xor`/`And` throws
`InvalidType`. The code checks only the FIRST operand (the second guard
re-tests `op1.variant` — dead code whose message names `op2`): with
`r0 = Bool true` and `r1 = Int 1` each of `or`/`xor`/`and` completes and
writes a canonical `Bool` computed from `Int 1`'s first payload byte,
and no error of any kind is reported. -/
theorem C2_bool_ops_skip_second_operand_check :
    (stepWrites host0 { baseState [.Or 0 1 2] with registers := c2Regs } 2 =
        some (boolVal true) ∧
      stepFaultName host0 { baseState [.Or 0 1 2] with registers := c2Regs } = none) ∧
    (stepWrites host0 { baseState [.Xor 0 1 2] with registers := c2Regs } 2 =
        some (boolVal false) ∧
      stepFaultName host0 { baseState [.Xor 0 1 2] with registers := c2Regs } = none) ∧
    (stepWrites host0 { baseState [.And 0 1 2] with registers := c2Regs } 2 =
        some (boolVal true) ∧
      stepFaultName host0 { baseState [.And 0 1 2] with registers := c2Regs } = none) := by
  decide

/-- C5: the claim says `to_string_debugged` of a canonically encoded
`String` value returns the decoded payload in double quotes. It never
does: the `String` arm slices `bytes[0..=4]` — five bytes — and the
conversion of that slice into a `[u8; 4]` panics unconditionally, for
EVERY payload. -/
theorem C5_string_debug_render_panics (host : Host) (payload : List Nat) :
    to_string_debugged host (stringVal payload) = none := by
  have hlen : (canonicalStringBytes payload).length = 8 + payload.length := by
    simp [canonicalStringBytes, natLEBytes_length]
  have h5 : 5 ≤ (canonicalStringBytes payload).length := by omega
  have h4 : ¬ ((canonicalStringBytes payload).take 5).length = 4 := by
    rw [List.length_take, hlen, Nat.min_eq_left (by omega)]
    omega
  show stringDebugRender (canonicalStringBytes payload) = none
  unfold stringDebugRender
  rw [if_pos h5]
  dsimp only
  rw [if_neg h4]

/-- C9: the claim says tokenizing a string literal containing `\u{0041}`
succeeds and yields `A`. The tokenizer instead consumes the four
characters immediately after `u` — here `{004` — as hex digits and fails
(its own error message documents the braced syntax, which therefore can
never be accepted); the brace-less `\u0041` is what produces the `A`. -/
theorem C9_braced_unicode_escape_rejected :
    tokenize bracedEscapeInput "input.msa" =
      .error "1:0: Error during unicode escape sequence '\\u\x7b004' parsing: invalid digit found in string" ∧
    tokenize plainEscapeInput "input.msa" = .ok [⟨.strLit "A", 3, 1, 0⟩] :=
  ⟨rfl, rfl⟩

/-- C10: running `move r0 None` then `jumpc r0 L` reaches the unguarded
read `value.bytes[0]` on an empty payload: the dispatch step is a Rust
panic — distinct from every jump, fall-through, halt and thrown-error
outcome of the model. -/
theorem C10_jumpc_on_empty_payload_panics :
    runFuel host0 3 (initState c10Program []) = .stuck := by
  decide

/-- C1 counterexample: with parameters declared in the order `a, b` and
`Int 1` pushed before `Int 2`, the claim binds the last-pushed `Int 2` to
the last-declared `b`; the VM instead binds `b` to `Int 1` (and `a`, the
first-declared, to the last-pushed `Int 2`). -/
theorem C1_counterexample_last_pushed_binds_first_declared :
    stepTopFrameArg host0 c1State "b" = some (intVal 1) ∧
    stepTopFrameArg host0 c1State "a" = some (intVal 2) ∧
    intVal 1 ≠ intVal 2 := by
  decide

/-- C1 (amended): `Call` gathers the parameter names in declaration order,
each taking one `pop` of the argument stack, so the `i`-th DECLARED
parameter binds the `i`-th MOST RECENTLY PUSHED of the consumed values
(the last-pushed argument binds the FIRST-declared parameter); when the
argument stack holds fewer values than there are parameters (and no frame
handles errors, which no instruction can arrange), the step faults with
`NotEnoughArguments`. -/
theorem C1_call_binds_first_declared_to_last_pushed
    (host : Host) (fn : String) (total : Nat) (names : List String)
    (vals rest : List MiValue) (frames : List StackFrame) (i : Nat)
    (hnd : names.Nodup) (hlen : vals.length = names.length)
    (h1 : i < names.length) (h2 : i < vals.length) :
    (∃ m, gatherArgsLoop fn total names (vals ++ rest) [] frames = .ok (m, rest, frames) ∧
      lookupA m (names.get ⟨i, h1⟩) = some (vals.get ⟨i, h2⟩)) ∧
    (∀ (s : RunState) (f : String) (argsN : List String) (rt : MiType) (lbl : Int),
      instrAt s.instructions (s.program_counter + 1) = some (.Call f) →
      lookupA s.function_addr_table f = some (argsN, rt, lbl) →
      unwindStack s.stack = none →
      s.argument_stack.length < argsN.length →
      ∃ e, step host s = .fault e ∧ e.name = "NotEnoughArguments") := by
  constructor
  · obtain ⟨m, hm, hidx, -⟩ :=
      gatherArgsLoop_enough fn total names vals rest [] frames hlen hnd
    exact ⟨m, hm, hidx i h1 h2⟩
  · intro s f argsN rt lbl hins hfn hnh hshort
    have hg := gatherArgsLoop_short f argsN.length argsN s.argument_stack [] s.stack hnh hshort
    unfold step
    dsimp only
    rw [hins]
    dsimp only
    rw [hfn]
    dsimp only
    rw [hg]
    exact ⟨_, rfl, rfl⟩

/-- C1 witness: the amended theorem evaluated on the concrete call of
`f(a, b)` with `Int 1` pushed first and `Int 2` pushed last. -/
theorem C1_witness :
    (∃ m, gatherArgsLoop "f" 2 ["a", "b"] ([intVal 2, intVal 1] ++ []) [] [mainFrame] =
        .ok (m, [], [mainFrame]) ∧
      lookupA m "a" = some (intVal 2)) ∧
    (∃ m, gatherArgsLoop "f" 2 ["a", "b"] ([intVal 2, intVal 1] ++ []) [] [mainFrame] =
        .ok (m, [], [mainFrame]) ∧
      lookupA m "b" = some (intVal 1)) ∧
    (∃ e, step host0 c1ShortState = .fault e ∧ e.name = "NotEnoughArguments") :=
  ⟨(C1_call_binds_first_declared_to_last_pushed host0 "f" 2 ["a", "b"]
      [intVal 2, intVal 1] [] [mainFrame] 0 (by decide) (by decide) (by decide) (by decide)).1,
   (C1_call_binds_first_declared_to_last_pushed host0 "f" 2 ["a", "b"]
      [intVal 2, intVal 1] [] [mainFrame] 1 (by decide) (by decide) (by decide) (by decide)).1,
   (C1_call_binds_first_declared_to_last_pushed host0 "f" 2 ["a", "b"]
      [intVal 2, intVal 1] [] [mainFrame] 0 (by decide) (by decide) (by decide) (by decide)).2
     c1ShortState "f" ["a", "b"] .NoneT 0 (by decide) (by decide) (by decide) (by decide)⟩

/-- C3: a `Call` at index `p` whose lookup, gathering and frame push all
succeed records return address `p + 1` in the pushed frame and moves the
counter to the function label; and any `Return` that pops a frame with a
recorded return address restores the counter to exactly that address — so
executing the callee to its matching `Return` with no intervening errors
leaves the counter at `p + 1`. -/
theorem C3_call_return_restores_pc (host : Host) (s : RunState) (p lbl : Int)
    (f : String) (argsN : List String) (rt : MiType)
    (hp : s.program_counter + 1 = p)
    (hins : instrAt s.instructions p = some (.Call f))
    (hfn : lookupA s.function_addr_table f = some (argsN, rt, lbl))
    (hargs : argsN.length ≤ s.argument_stack.length)
    (hcap : s.stack.length + 1 < 4000) :
    (∃ s' frame rest, step host s = .next s' ∧ s'.stack = frame :: rest ∧
      frame.return_addr = some (p + 1).toNat ∧ ((p + 1).toNat : Int) = p + 1 ∧
      s'.program_counter = lbl) ∧
    (∀ (t : RunState) (frame : StackFrame) (rest : List StackFrame) (a : Nat),
      instrAt t.instructions (t.program_counter + 1) = some .Return →
      t.stack = frame :: rest → frame.return_addr = some a →
      ∃ t', step host t = .next t' ∧ t'.program_counter = (a : Int)) := by
  constructor
  · have hp0 : ¬ p < 0 := fun h => by simp [instrAt, h] at hins
    have hsplit := List.take_append_drop argsN.length s.argument_stack
    obtain ⟨m, hm⟩ := gatherArgsLoop_ok f argsN.length argsN
      (s.argument_stack.take argsN.length) (s.argument_stack.drop argsN.length)
      [] s.stack (by rw [List.length_take]; omega)
    rw [hsplit] at hm
    have hstep : step host s =
        .next { s with
          stack := ⟨f, m, [], some (p + 1).toNat, false, 0⟩ :: s.stack,
          argument_stack := s.argument_stack.drop argsN.length,
          program_counter := lbl } := by
      unfold step
      dsimp only
      rw [hp, hins]
      dsimp only
      rw [hfn]
      dsimp only
      rw [hm]
      dsimp only
      unfold pushFrame
      rw [if_neg (by omega)]
    exact ⟨_, _, _, hstep, rfl, rfl, by omega, rfl⟩
  · intro t frame rest a hins' hstk hra
    have hstep : step host t =
        .next { t with stack := rest, program_counter := (a : Int) } := by
      unfold step
      dsimp only
      rw [hins']
      dsimp only
      rw [hstk]
      dsimp only
      rw [hra]
    exact ⟨_, hstep, rfl⟩

/-- C3 witness: the concrete `Call` of a zero-parameter function at index
0 (with label 5) pushes a frame whose return address is 1; the concrete
`Return` over that frame sets the counter to 1. -/
theorem C3_witness :
    (∃ s' frame rest, step host0 c3CallState = .next s' ∧ s'.stack = frame :: rest ∧
      frame.return_addr = some (((0 : Int)) + 1).toNat ∧
      ((((0 : Int)) + 1).toNat : Int) = (0 : Int) + 1 ∧
      s'.program_counter = (5 : Int)) ∧
    (∃ t', step host0 c3ReturnState = .next t' ∧ t'.program_counter = ((1 : Nat) : Int)) :=
  ⟨(C3_call_return_restores_pc host0 c3CallState 0 5 "f" [] .NoneT (by decide) (by decide)
      (by decide) (by decide) (by decide)).1,
   (C3_call_return_restores_pc host0 c3CallState 0 5 "f" [] .NoneT (by decide) (by decide)
      (by decide) (by decide) (by decide)).2
     c3ReturnState ⟨"f", [], [], some 1, false, 0⟩ [mainFrame] 1 (by decide) (by decide)
     (by decide)⟩

/-- C4: the dispatch loop increments the counter before every fetch, so
after a `Return` pops a frame recording `a = p + 1` (with `p` the index of
the `Call` that pushed it) the machine's counter is `p + 1` and the NEXT
index fetched and executed is `p + 2`; the instruction at `p + 1` itself
is never executed on the return path. -/
theorem C4_return_path_skips_instruction_after_call
    (host : Host) (t : RunState) (frame : StackFrame) (rest : List StackFrame)
    (p : Int) (a : Nat)
    (hins : instrAt t.instructions (t.program_counter + 1) = some .Return)
    (hstk : t.stack = frame :: rest)
    (hra : frame.return_addr = some a)
    (hap : (a : Int) = p + 1) :
    ∃ t', step host t = .next t' ∧ t'.program_counter = p + 1 ∧
      nextFetchIndex t' = p + 2 ∧ p + 2 ≠ p + 1 := by
  have hstep : step host t =
      .next { t with stack := rest, program_counter := (a : Int) } := by
    unfold step
    dsimp only
    rw [hins]
    dsimp only
    rw [hstk]
    dsimp only
    rw [hra]
  refine ⟨_, hstep, ?_, ?_, by omega⟩
  · exact hap
  · unfold nextFetchIndex
    dsimp only
    omega

/-- The concrete `Return` state used by the C4 witness. -/
def c4State : RunState :=
  { baseState [.Return] with
      stack := [⟨"f", [], [], some 1, false, 0⟩, mainFrame] }

/-- C4 witness: over the concrete `Return` frame recording address 1
(pushed by a `Call` at index 0), the counter lands on 1 and the next fetch
happens at index 2. -/
theorem C4_witness :
    ∃ t', step host0 c4State = .next t' ∧ t'.program_counter = (0 : Int) + 1 ∧
      nextFetchIndex t' = (0 : Int) + 2 ∧ (0 : Int) + 2 ≠ (0 : Int) + 1 :=
  C4_return_path_skips_instruction_after_call host0 c4State
    ⟨"f", [], [], some 1, false, 0⟩ [mainFrame] 0 1 (by decide) (by decide) (by decide)
    (by decide)

/-- C7: over any two set registers, `Eq` writes the canonical `Bool` of
the structural equality of the two `(bytes, variant)` pairs and `Ne`
writes exactly its negation; and values of different variants — such as
`Int 1` against IEEE `Float 1.0` — are never structurally equal. -/
theorem C7_eq_ne_agree (host : Host) (s : RunState) (op1 op2 dst : Nat)
    (x y : MiValue)
    (hx : regGet s.registers op1 = some x) (hy : regGet s.registers op2 = some y)
    (hdst : dst < s.registers.length) :
    (instrAt s.instructions (s.program_counter + 1) = some (.Eq op1 op2 dst) →
      ∃ s', step host s = .next s' ∧
        regGet s'.registers dst = some ⟨[if x = y then 1 else 0], .BoolT⟩) ∧
    (instrAt s.instructions (s.program_counter + 1) = some (.Ne op1 op2 dst) →
      ∃ s', step host s = .next s' ∧
        regGet s'.registers dst = some ⟨[if x ≠ y then 1 else 0], .BoolT⟩) ∧
    (⟨[if x = y then 1 else 0], .BoolT⟩ : MiValue) = boolVal (decide (x = y)) ∧
    (⟨[if x ≠ y then 1 else 0], .BoolT⟩ : MiValue) = boolVal (!(decide (x = y))) ∧
    intVal 1 ≠ (⟨floatOneBytes, .FloatT⟩ : MiValue) := by
  refine ⟨?_, ?_, ?_, ?_, by decide⟩
  · intro hins
    have hstep : step host s =
        .next { s with
          registers := s.registers.set dst (some ⟨[if x = y then 1 else 0], .BoolT⟩),
          program_counter := s.program_counter + 1 } := by
      unfold step
      dsimp only
      rw [hins]
      dsimp only
      rw [hx, hy]
      dsimp only
      unfold regSetNext regsSet
      rw [if_pos hdst]
    exact ⟨_, hstep, regGet_set_self _ _ _ hdst⟩
  · intro hins
    have hstep : step host s =
        .next { s with
          registers := s.registers.set dst (some ⟨[if x ≠ y then 1 else 0], .BoolT⟩),
          program_counter := s.program_counter + 1 } := by
      unfold step
      dsimp only
      rw [hins]
      dsimp only
      rw [hx, hy]
      dsimp only
      unfold regSetNext regsSet
      rw [if_pos hdst]
    exact ⟨_, hstep, regGet_set_self _ _ _ hdst⟩
  · by_cases h : x = y <;> simp [boolVal, h]
  · by_cases h : x = y <;> simp [boolVal, h]

/-- C7 witness: the concrete `eq`/`ne` over `r0 = Int 1`, `r1 = Int 2`. -/
theorem C7_witness :
    (∃ s', step host0 c7EqState = .next s' ∧
      regGet s'.registers 2 =
        some ⟨[if (intVal 1 : MiValue) = intVal 2 then 1 else 0], .BoolT⟩) ∧
    (∃ s', step host0 c7NeState = .next s' ∧
      regGet s'.registers 2 =
        some ⟨[if (intVal 1 : MiValue) ≠ intVal 2 then 1 else 0], .BoolT⟩) :=
  ⟨(C7_eq_ne_agree host0 c7EqState 0 1 2 (intVal 1) (intVal 2) (by decide) (by decide)
      (by decide)).1 (by decide),
   (C7_eq_ne_agree host0 c7NeState 0 1 2 (intVal 1) (intVal 2) (by decide) (by decide)
      (by decide)).2.1 (by decide)⟩

/-- C6: for every arithmetic instruction over two set registers on a
handler-free stack, a completing step can only have written a value of the
operands' common variant (`Int+Int → Int`, `Float+Float → Float`); a
non-numeric operand, or two numeric operands of different variants, faults
with `InvalidType`; and `Add` on two canonical `Int` payloads completes
and writes exactly the wrapped `Int` sum. -/
theorem C6_arith_type_preservation (host : Host) (s : RunState) (ins : Instruction)
    (op1 op2 dst : Nat) (v1 v2 : MiValue)
    (hins : instrAt s.instructions (s.program_counter + 1) = some ins)
    (hops : arithOperands ins = some (op1, op2, dst))
    (h1 : regGet s.registers op1 = some v1) (h2 : regGet s.registers op2 = some v2)
    (hnh : unwindStack s.stack = none) :
    (∀ s', step host s = .next s' →
      ∃ w, regGet s'.registers dst = some w ∧ w.variant = v1.variant ∧
        v1.variant = v2.variant) ∧
    ((v1.variant.is_numeric = false ∨ v2.variant.is_numeric = false ∨
        v1.variant ≠ v2.variant) →
      ∃ e, step host s = .fault e ∧ e.name = "InvalidType") ∧
    (ins = .Add op1 op2 dst → v1.variant = .IntT → v2.variant = .IntT →
      v1.bytes.length = 4 → v2.bytes.length = 4 → dst < s.registers.length →
      ∃ s', step host s = .next s' ∧
        regGet s'.registers dst = some (intVal (i32toInt v1.bytes + i32toInt v2.bytes))) := by
  cases ins
  case Add a b c =>
    simp only [arithOperands, Option.some.injEq, Prod.mk.injEq] at hops
    obtain ⟨ha, hb, hc⟩ := hops
    subst ha; subst hb; subst hc
    have hstep : step host s =
        numBinop { s with program_counter := s.program_counter + 1 }
          a b c "add" intAddOp host.fadd := by
      unfold step
      dsimp only
      rw [hins]
    have hmain := numBinop_spec { s with program_counter := s.program_counter + 1 }
      a b c "add" intAddOp host.fadd v1 v2 h1 h2 hnh
    refine ⟨fun s' hs' => hmain.1 s' (hstep ▸ hs'), fun h => hstep ▸ hmain.2 h, ?_⟩
    intro _ hv1 hv2 hb1 hb2 hdst
    obtain ⟨b1, t1⟩ := v1
    obtain ⟨b2, t2⟩ := v2
    simp only [MiValue.variant] at hv1 hv2
    subst hv1
    subst hv2
    rw [hstep]
    unfold numBinop
    rw [h1, h2]
    simp only [MiValue.bytes] at hb1 hb2
    simp only [MiType.is_numeric, MiValue.variant, MiValue.bytes, hb1, hb2, and_self,
      if_true, reduceIte, not_true_eq_false, Bool.false_eq_true, if_false, intAddOp]
    unfold regSetNext regsSet
    rw [if_pos hdst]
    exact ⟨_, rfl, regGet_set_self _ _ _ hdst⟩
  case Sub a b c =>
    simp only [arithOperands, Option.some.injEq, Prod.mk.injEq] at hops
    obtain ⟨ha, hb, hc⟩ := hops
    subst ha; subst hb; subst hc
    have hstep : step host s =
        numBinop { s with program_counter := s.program_counter + 1 }
          a b c "subtract" intSubOp host.fsub := by
      unfold step
      dsimp only
      rw [hins]
    have hmain := numBinop_spec { s with program_counter := s.program_counter + 1 }
      a b c "subtract" intSubOp host.fsub v1 v2 h1 h2 hnh
    exact ⟨fun s' hs' => hmain.1 s' (hstep ▸ hs'), fun h => hstep ▸ hmain.2 h,
      fun habs => absurd habs (by simp)⟩
  case Mul a b c =>
    simp only [arithOperands, Option.some.injEq, Prod.mk.injEq] at hops
    obtain ⟨ha, hb, hc⟩ := hops
    subst ha; subst hb; subst hc
    have hstep : step host s =
        numBinop { s with program_counter := s.program_counter + 1 }
          a b c "multiply" intMulOp host.fmul := by
      unfold step
      dsimp only
      rw [hins]
    have hmain := numBinop_spec { s with program_counter := s.program_counter + 1 }
      a b c "multiply" intMulOp host.fmul v1 v2 h1 h2 hnh
    exact ⟨fun s' hs' => hmain.1 s' (hstep ▸ hs'), fun h => hstep ▸ hmain.2 h,
      fun habs => absurd habs (by simp)⟩
  case Div a b c =>
    simp only [arithOperands, Option.some.injEq, Prod.mk.injEq] at hops
    obtain ⟨ha, hb, hc⟩ := hops
    subst ha; subst hb; subst hc
    have hstep : step host s =
        numBinop { s with program_counter := s.program_counter + 1 }
          a b c "divide" intDivOp host.fdiv := by
      unfold step
      dsimp only
      rw [hins]
    have hmain := numBinop_spec { s with program_counter := s.program_counter + 1 }
      a b c "divide" intDivOp host.fdiv v1 v2 h1 h2 hnh
    exact ⟨fun s' hs' => hmain.1 s' (hstep ▸ hs'), fun h => hstep ▸ hmain.2 h,
      fun habs => absurd habs (by simp)⟩
  case Rem a b c =>
    simp only [arithOperands, Option.some.injEq, Prod.mk.injEq] at hops
    obtain ⟨ha, hb, hc⟩ := hops
    subst ha; subst hb; subst hc
    have hstep : step host s =
        numBinop { s with program_counter := s.program_counter + 1 }
          a b c "rem" intRemOp host.frem := by
      unfold step
      dsimp only
      rw [hins]
    have hmain := numBinop_spec { s with program_counter := s.program_counter + 1 }
      a b c "rem" intRemOp host.frem v1 v2 h1 h2 hnh
    exact ⟨fun s' hs' => hmain.1 s' (hstep ▸ hs'), fun h => hstep ▸ hmain.2 h,
      fun habs => absurd habs (by simp)⟩
  case Pow a b c =>
    simp only [arithOperands, Option.some.injEq, Prod.mk.injEq] at hops
    obtain ⟨ha, hb, hc⟩ := hops
    subst ha; subst hb; subst hc
    have hstep : step host s =
        numBinop { s with program_counter := s.program_counter + 1 }
          a b c "power" intPowOp host.fpow := by
      unfold step
      dsimp only
      rw [hins]
    have hmain := numBinop_spec { s with program_counter := s.program_counter + 1 }
      a b c "power" intPowOp host.fpow v1 v2 h1 h2 hnh
    exact ⟨fun s' hs' => hmain.1 s' (hstep ▸ hs'), fun h => hstep ▸ hmain.2 h,
      fun habs => absurd habs (by simp)⟩
  all_goals simp only [arithOperands, reduceCtorEq] at hops

/-- C6 witness: `add r0 r1 r2` on `Int 2`, `Int 3` writes `Int 5`; on
`Int 1` and a `Float` it faults with `InvalidType`. -/
theorem C6_witness :
    (∃ s', step host0 c6State = .next s' ∧
      regGet s'.registers 2 =
        some (intVal (i32toInt (intVal 2).bytes + i32toInt (intVal 3).bytes))) ∧
    (∃ e, step host0 c6MixState = .fault e ∧ e.name = "InvalidType") :=
  ⟨(C6_arith_type_preservation host0 c6State (.Add 0 1 2) 0 1 2 (intVal 2) (intVal 3)
      (by decide) (by decide) (by decide) (by decide) (by decide)).2.2 rfl (by decide)
      (by decide) (by decide) (by decide) (by decide),
   (C6_arith_type_preservation host0 c6MixState (.Add 0 1 2) 0 1 2 (intVal 1)
      ⟨floatOneBytes, .FloatT⟩ (by decide) (by decide) (by decide) (by decide)
      (by decide)).2.1 (by decide)⟩

theorem unwindStack_replicate_mainFrame :
    ∀ n, unwindStack (List.replicate n mainFrame) = none := by
  intro n
  induction n with
  | zero => rfl
  | succ n ih => simpa [List.replicate, unwindStack, mainFrame] using ih

/-- C8: `push_frame` succeeds exactly when the current frame count plus
one is strictly below 4000 — so the 4000th push (onto 3999 frames) fails —
and when the failing push happens inside a `Call` on a handler-free stack
the step faults with `StackOverflow`. -/
theorem C8_push_cap_and_call_overflow (host : Host) :
    (∀ (frames : List StackFrame) (fr : StackFrame),
      pushOk frames fr = true ↔ frames.length + 1 < 4000) ∧
    (∀ (s : RunState) (f : String) (argsN : List String) (rt : MiType) (lbl : Int),
      instrAt s.instructions (s.program_counter + 1) = some (.Call f) →
      lookupA s.function_addr_table f = some (argsN, rt, lbl) →
      argsN.length ≤ s.argument_stack.length →
      ¬ s.stack.length + 1 < 4000 →
      unwindStack s.stack = none →
      ∃ e, step host s = .fault e ∧ e.name = "StackOverflow") := by
  constructor
  · intro frames fr
    unfold pushOk pushFrame
    by_cases h : frames.length + 1 ≥ 4000
    · rw [if_pos h]
      constructor
      · intro hfalse; cases hfalse
      · intro hlt; omega
    · rw [if_neg h]
      exact ⟨fun _ => by omega, fun _ => rfl⟩
  · intro s f argsN rt lbl hins hfn hargs hcap hnh
    obtain ⟨m, hm⟩ := gatherArgsLoop_ok f argsN.length argsN
      (s.argument_stack.take argsN.length) (s.argument_stack.drop argsN.length)
      [] s.stack (by rw [List.length_take]; omega)
    rw [List.take_append_drop] at hm
    have hstep : step host s =
        throwStep { s with
          stack := s.stack,
          argument_stack := s.argument_stack.drop argsN.length,
          program_counter := lbl } "StackOverflow"
          ("Call stack size exceeded the maximum limit of " ++ toString 4000) := by
      unfold step
      dsimp only
      rw [hins]
      dsimp only
      rw [hfn]
      dsimp only
      rw [hm]
      dsimp only
      unfold pushFrame
      rw [if_pos (by omega)]
    rw [hstep, throwStep_fault _ (by dsimp only; exact hnh)]
    exact ⟨_, rfl, rfl⟩

/-- C8 witness: the cap statement instantiated at a stack of 3999 frames
(on which the next — 4000th — push fails) and the concrete `Call` on that
full stack faulting with `StackOverflow`. -/
theorem C8_witness :
    (pushOk fullFrames mainFrame = true ↔ fullFrames.length + 1 < 4000) ∧
    (∃ e, step host0 c8State = .fault e ∧ e.name = "StackOverflow") :=
  ⟨(C8_push_cap_and_call_overflow host0).1 fullFrames mainFrame,
   (C8_push_cap_and_call_overflow host0).2 c8State "f" [] .NoneT 0 (by decide) (by decide)
     (by decide)
     (by show ¬ (List.replicate 3999 mainFrame).length + 1 < 4000
         rw [List.length_replicate]
         omega)
     (by show unwindStack (List.replicate 3999 mainFrame) = none
         exact unwindStack_replicate_mainFrame 3999)⟩

end Mirage
